import Mathlib

/-!
Verification development for the jarvis-ai voice-agent front end.

The repository bundles several variants of the same application. The core
session engine lives in the `useJarvis` hooks: `src/hooks/useJarvis.ts`
contains two variants (called here the JARVIS variant and the Friday
variant), and `src/unnamed/part_000` contains a third (called here the
part_000 variant). The definitions below are shallow embeddings of the
functions of those files: message-list updates, the task list, the playback
scheduler arithmetic, the interrupt handler, the speaking-indicator event
flow, the tool-call dispatchers, session teardown, and the PCM/base64 audio
codec helpers. Where a variant name is needed the suffix `P0` marks the
part_000 variant and `F` marks the Friday variant.
-/

/-- The `Sender` enum of `src/types.ts`. -/
inductive Sender where
  | user
  | ai
  | system
  deriving DecidableEq

/-- The `Message` record of `src/types.ts`, restricted to the fields the
message-list operations inspect. The field `interim` embeds the source's
optional `isPartial` flag (absent = `false`); `id` and `timestamp` play no
role in the claims. -/
structure Msg where
  text : String
  sender : Sender
  interim : Bool
  deriving DecidableEq

/-- `updateLastMessage` of the JARVIS variant (`src/hooks/useJarvis.ts`
lines 183-192): if the trailing message is a partial one of the same
sender, its text is replaced by the incoming delta; otherwise a fresh
partial message is appended. -/
def updateLastMessage (text : String) (sender : Sender) (interim : Bool)
    (prev : List Msg) : List Msg :=
  match prev.getLast? with
  | some lastMsg =>
    if lastMsg.interim = true ∧ lastMsg.sender = sender then
      prev.dropLast ++ [{ lastMsg with text := text, interim := interim }]
    else
      prev ++ [{ text := text, sender := sender, interim := true }]
  | none => prev ++ [{ text := text, sender := sender, interim := true }]

/-- `updateLastMessage` of the part_000 variant (`src/unnamed/part_000`
lines 215-224): identical to the JARVIS variant except that the trailing
partial message's text is `lastMsg.text + text`, i.e. the incoming delta is
appended to the already accumulated text instead of replacing it. -/
def updateLastMessageP0 (text : String) (sender : Sender) (interim : Bool)
    (prev : List Msg) : List Msg :=
  match prev.getLast? with
  | some lastMsg =>
    if lastMsg.interim = true ∧ lastMsg.sender = sender then
      prev.dropLast ++ [{ lastMsg with text := lastMsg.text ++ text, interim := interim }]
    else
      prev ++ [{ text := text, sender := sender, interim := true }]
  | none => prev ++ [{ text := text, sender := sender, interim := true }]

/-- The `turnComplete` branch of the JARVIS and part_000 `onmessage`
handlers: every partial message in the list is finalized in place
(`isPartial` set to `false`). -/
def finalizeTurn (msgs : List Msg) : List Msg :=
  msgs.map (fun m => if m.interim = true then { m with interim := false } else m)

/-- One speaker turn as the `onmessage` handler processes it: each
incoming transcript delta is applied through the given update function
with `isPartial = true`, in arrival order. -/
def runDeltas (upd : String → Sender → Bool → List Msg → List Msg)
    (sender : Sender) (deltas : List String) (msgs : List Msg) : List Msg :=
  deltas.foldl (fun acc d => upd d sender true acc) msgs

/-- The `TaskStatus` enum of `src/types.ts`. -/
inductive TaskStatus where
  | inProgress
  | completed
  | failed
  deriving DecidableEq

/-- The `Task` record of `src/types.ts` (named `JTask` here because `Task` is taken by the Lean core library). -/
structure JTask where
  id : String
  description : String
  status : TaskStatus
  startTime : String
  result : Option String := none
  deriving DecidableEq

/-- `addNewTask` of the part_000 variant (lines 199-205) and the Friday
variant (`src/hooks/useJarvis.ts` lines 665-671): the new task is
prepended and at most the first 9 previous tasks are retained
(`[newTask, ...prev.slice(0, 9)]`). -/
def addNewTask (newTask : JTask) (prev : List JTask) : List JTask :=
  newTask :: prev.take 9

/-- `updateTask` of all variants: the task with the matching id has its
status and result replaced; all other tasks are untouched. -/
def updateTask (id : String) (status : TaskStatus) (result : Option String)
    (tasks : List JTask) : List JTask :=
  tasks.map (fun t => if t.id = id then { t with status := status, result := result } else t)

/-- The playback-scheduler arithmetic of the `onmessage` audio branch,
identical in all three variants (JARVIS lines 295-307, part_000 lines
373-385, Friday lines 823-840): for each decoded chunk the code runs
`nextStartTime = max(nextStartTime, ctx.currentTime)`, starts the source at
that time, and then advances `nextStartTime` by the buffer's duration.
A chunk is a pair `(deviceNow, duration)` of the device clock value at the
moment the chunk is processed and the decoded buffer's duration; the
function returns the list of scheduled start times. -/
def schedStarts (cursor : ℚ) : List (ℚ × ℚ) → List ℚ
  | [] => []
  | (deviceNow, dur) :: rest =>
    let start := max cursor deviceNow
    start :: schedStarts (start + dur) rest

/-- The value of `nextStartTimeRef` just before each chunk of the sequence
is processed (the running cursor at the moment of scheduling). -/
def schedCursors (cursor : ℚ) : List (ℚ × ℚ) → List ℚ
  | [] => []
  | (deviceNow, dur) :: rest => cursor :: schedCursors (max cursor deviceNow + dur) rest

/-- Gapless back-to-back start times: `c, c + d0, c + d0 + d1, ...` for the
given duration list. -/
def packedStarts (cursor : ℚ) : List ℚ → List ℚ
  | [] => []
  | dur :: rest => cursor :: packedStarts (cursor + dur) rest

/-- `SuccDiff starts durs` states `start[i+1] = start[i] + durs[i]` for
every consecutive pair of scheduled start times. -/
def SuccDiff : List ℚ → List ℚ → Prop
  | s0 :: s1 :: srest, dur :: drest => s1 = s0 + dur ∧ SuccDiff (s1 :: srest) drest
  | _, _ => True

/-- The running cursor stays at or above device-current-time at every
chunk of the sequence. -/
def CursorDominates (cursor : ℚ) : List (ℚ × ℚ) → Prop
  | [] => True
  | (deviceNow, dur) :: rest =>
    deviceNow ≤ cursor ∧ CursorDominates (max cursor deviceNow + dur) rest

/-- State of the playback scheduler for the interrupt claim: the tracked
source set (`audioSourcesRef`, as a list of source ids), the ids on which
`stop()` has been called, and the cursor (`nextStartTimeRef`). -/
structure PlaybackState where
  sources : List ℕ
  stopped : List ℕ
  cursor : ℚ
  deriving DecidableEq

/-- The `interrupted` branch of `onmessage` (JARVIS variant lines 309-315,
part_000 lines 387-391): every tracked source is stopped, the tracked set
is cleared, and `nextStartTimeRef.current = 0`. -/
def handleInterrupted (s : PlaybackState) : PlaybackState :=
  { sources := [], stopped := s.stopped ++ s.sources, cursor := 0 }

/-- The events of the Friday variant that touch the speaking indicator or
the tracked source set: the branches of the live-session `onmessage`
handler (`src/hooks/useJarvis.ts` lines 800-851), the per-source `ended`
callbacks registered there (lines 833-836) and in `speakText` (lines
612-621), and the source added by `speakText`. -/
inductive SpeakEvent where
  | inputDelta
  | outputDelta
  | turnComplete
  | audioChunk (src : ℕ)
  | sourceEnded (src : ℕ)
  | toolCallArrived
  | speakTextStart (src : ℕ)
  deriving DecidableEq

/-- The Friday-variant state observed by the speaking-indicator claim: the
tracked source set `audioSourcesRef` and the `isSpeaking` / `isThinking`
flags. -/
structure UIState where
  sources : Finset ℕ
  isSpeaking : Bool
  isThinking : Bool
  deriving DecidableEq

/-- One event step of the Friday variant.
  - `inputDelta`: input transcription only updates text buffers.
  - `outputDelta`: `setIsThinking(false); setIsSpeaking(true)`.
  - `turnComplete`: finalizes buffers and sets `isThinking` false; the
    source comment explicitly refuses to clear `isSpeaking` here.
  - `audioChunk src`: `setIsThinking(false); setIsSpeaking(true)` and the
    new source is added to the tracked set.
  - `sourceEnded src`: the `ended` listener deletes the source and clears
    `isSpeaking` exactly when the set became empty.
  - `toolCallArrived`: `setIsThinking(false)` only.
  - `speakTextStart src`: `speakText` starts a source, adds it to the set
    and sets `isSpeaking` true. -/
def stepEvent (s : UIState) : SpeakEvent → UIState
  | SpeakEvent.inputDelta => s
  | SpeakEvent.outputDelta => { s with isThinking := false, isSpeaking := true }
  | SpeakEvent.turnComplete => { s with isThinking := false }
  | SpeakEvent.audioChunk src =>
    { s with isThinking := false, isSpeaking := true, sources := insert src s.sources }
  | SpeakEvent.sourceEnded src =>
    let rest := s.sources.erase src
    { s with sources := rest, isSpeaking := if rest = ∅ then false else s.isSpeaking }
  | SpeakEvent.toolCallArrived => { s with isThinking := false }
  | SpeakEvent.speakTextStart src =>
    { s with sources := insert src s.sources, isSpeaking := true }

/-- An `ended` event can only fire for a source that is still tracked:
without an interrupt, a started source stays in the set until its own
`ended` listener removes it, and the listener fires once per source. -/
def LegalEvent (s : UIState) : SpeakEvent → Prop
  | SpeakEvent.sourceEnded src => src ∈ s.sources
  | _ => True

/-- The lifecycle state of a Web Audio `AudioContext`. -/
inductive CtxState where
  | running
  | suspended
  | closed
  deriving DecidableEq

/-- `AudioContext.close()`: throws `InvalidStateError` on an
already-closed context, otherwise moves it to `closed`. -/
def closeCtx : CtxState → Except String CtxState
  | CtxState.closed => Except.error "InvalidStateError"
  | _ => Except.ok CtxState.closed

/-- The session resources touched by `stopSession` of the Friday variant
(`src/hooks/useJarvis.ts` lines 738-753): the live-connection ref
`sessionPromiseRef`, the input `AudioContext` ref, the media tracks'
live flags, the tracked output sources, and the `isSessionActive` /
`micVolume` state. -/
structure SessionState where
  sessionRef : Option Unit
  inputCtx : Option CtxState
  tracksLive : List Bool
  sources : List ℕ
  isSessionActive : Bool
  micVolume : ℚ
  deriving DecidableEq

/-- `stopSession` of the Friday variant: close and null the session ref if
present; disconnect the script processor and stop every media track (both
no-throw, tracks become dead); close the input context only when its state
is not already `closed` (the guard `state !== 'closed'`, with a null ref
skipping the call); stop and clear all tracked sources; clear
`isSessionActive` and `micVolume`. -/
def stopSession (s : SessionState) : Except String SessionState :=
  let s1 := match s.sessionRef with
    | some _ => { s with sessionRef := none }
    | none => s
  let s2 := { s1 with tracksLive := s1.tracksLive.map (fun _ => false) }
  let step3 : Except String SessionState := match s2.inputCtx with
    | some ctx =>
      if ctx = CtxState.closed then Except.ok s2
      else (closeCtx ctx).map (fun c => { s2 with inputCtx := some c })
    | none => Except.ok s2
  step3.map (fun s3 => { s3 with sources := [], isSessionActive := false, micVolume := 0 })

/-- The state touched by `disconnect` of the JARVIS variant
(`src/hooks/useJarvis.ts` lines 340-344). -/
structure DisconnectState where
  isSessionActive : Bool
  isThinking : Bool
  deriving DecidableEq

/-- `disconnect` of the JARVIS variant: asks the session (if any) to close
via the promise and clears the two flags; it performs no fallible call. -/
def disconnect (_s : DisconnectState) : DisconnectState :=
  { isSessionActive := false, isThinking := false }

/-- A tool invocation as announced by the remote channel (`FunctionCall`):
its correlation id and tool name; the arguments play no role in the
dispatch-routing claims. -/
structure FunctionCall where
  id : String
  name : String
  deriving DecidableEq

/-- The names the part_000 dispatcher's `switch` handles
(`src/unnamed/part_000` lines 232-265); the JARVIS dispatcher
(`src/hooks/useJarvis.ts` lines 200-219) handles the same list minus
`searchWeb`. -/
def part000Registry : List String := ["searchWeb", "openUrl", "setReminder", "getCurrentTime"]

/-- The names the Friday dispatcher's `switch` handles
(`src/hooks/useJarvis.ts` lines 699-725). -/
def fridayRegistry : List String := ["searchWeb", "searchNearby", "generateImage"]

/-- The `result` value placed in the part_000 / JARVIS dispatcher's
response: `{status:'OK'}`, `{time}`, `{summary}`, or `{error}`. -/
inductive ResultPayload where
  | okStatus
  | time (t : String)
  | summary (s : String)
  | error (msg : String)
  deriving DecidableEq

/-- What one known-name branch of the part_000 / JARVIS `try` block does
when executed: either it completes with a payload after speaking some
texts, or it throws an exception with the given message after speaking
some texts. The branches' bodies call external services, so their outcome
is a parameter of the embedding. -/
inductive BranchResult where
  | ok (payload : ResultPayload) (spoken : List String)
  | thrown (msg : String) (spoken : List String)
  deriving DecidableEq

/-- The correlated response object `{id, name, response: {result}}`
returned by the part_000 / JARVIS dispatcher. -/
structure ToolResponse where
  id : String
  name : String
  result : ResultPayload
  deriving DecidableEq

/-- Everything one part_000 / JARVIS dispatcher call produces: the single
correlated response, the final status of the task it opened, the
user-visible spoken texts, and the `isProcessing` flag after the
`finally` block. -/
structure DispatchOutcome where
  response : ToolResponse
  taskStatus : TaskStatus
  spoken : List String
  processingAfter : Bool
  deriving DecidableEq

/-- `executeToolCall` of the part_000 variant (`src/unnamed/part_000`
lines 226-281); the JARVIS variant (`src/hooks/useJarvis.ts` lines
194-235) has the same default and catch structure. A known name runs its
branch; an unknown name takes the `default` branch, which sets
`result = {error: 'Unknown function'}` and speaks an apology. A completed
`try` block marks the task completed and returns
`{id, name, response: {result}}`; a thrown exception is caught, marks the
task failed, speaks exactly one failure message naming the tool, and
returns the same correlated shape with an error payload. The `finally`
block always clears `isProcessing`. The function is total: no exception
escapes it. -/
def executeToolCall (fc : FunctionCall) (branch : String → BranchResult) : DispatchOutcome :=
  let tryResult : BranchResult :=
    if fc.name ∈ part000Registry then branch fc.name
    else BranchResult.ok (ResultPayload.error "Unknown function")
           ["I'm sorry, I don't know how to do that."]
  match tryResult with
  | BranchResult.ok payload spoken =>
    { response := ⟨fc.id, fc.name, payload⟩, taskStatus := TaskStatus.completed,
      spoken := spoken, processingAfter := false }
  | BranchResult.thrown msg spoken =>
    { response := ⟨fc.id, fc.name, ResultPayload.error msg⟩, taskStatus := TaskStatus.failed,
      spoken := spoken ++ ["I encountered an error while trying to " ++ fc.name ++ "."],
      processingAfter := false }

/-- What one known-name branch of the Friday `try` block does: either it
completes, setting `responseTextForSession` and appending chat messages,
or it throws with the given error message. -/
inductive BranchResultF where
  | ok (text : String) (messages : List String)
  | thrown (msg : String) (messages : List String)
  deriving DecidableEq

/-- Everything one Friday dispatcher call produces: the `message` string
of the returned `{result: {message}}` payload, the task's final status,
the chat messages appended, and the `isProcessing` flag after `finally`. -/
structure FridayOutcome where
  resultMessage : String
  taskStatus : TaskStatus
  messages : List String
  processingAfter : Bool
  deriving DecidableEq

/-- `executeToolCall` of the Friday variant (`src/hooks/useJarvis.ts`
lines 692-736): `responseTextForSession` starts as
`'Task completed successfully.'`; the `switch` has no `default` case, so
an unknown name falls through the `try` block untouched and the task is
marked completed with the initial success text; a caught exception sets
the text to `'I failed to execute the task: ...'` and marks the task
failed; `finally` clears `isProcessing`; the call returns
`{result: {message: responseTextForSession}}`. -/
def executeToolCallF (fc : FunctionCall) (branch : String → BranchResultF) : FridayOutcome :=
  if fc.name ∈ fridayRegistry then
    match branch fc.name with
    | BranchResultF.ok text msgs =>
      { resultMessage := text, taskStatus := TaskStatus.completed,
        messages := msgs, processingAfter := false }
    | BranchResultF.thrown msg msgs =>
      { resultMessage := "I failed to execute the task: " ++ msg,
        taskStatus := TaskStatus.failed, messages := msgs, processingAfter := false }
  else
    { resultMessage := "Task completed successfully.", taskStatus := TaskStatus.completed,
      messages := [], processingAfter := false }

/-- The single `functionResponses` entry the Friday `onmessage` toolCall
branch sends back over the channel (`src/hooks/useJarvis.ts` lines
845-849): the dispatcher's returned payload, wrapped at the send site
with the call's own id and name. -/
structure FridayToolResponse where
  id : String
  name : String
  resultMessage : String
  deriving DecidableEq

/-- The Friday send site: `sendToolResponse({functionResponses: {id:
fc.id, name: fc.name, response: {result: JSON.stringify(result)}}})` —
one correlated response per call, carrying the dispatcher's message
payload. -/
def sendToolResponseF (fc : FunctionCall) (o : FridayOutcome) : FridayToolResponse :=
  ⟨fc.id, fc.name, o.resultMessage⟩

/-- Everything one `sendTextMessage` call produces: whether a one-shot
request was issued to the remote model, the finalized messages appended to
the list (in order), and the texts handed to speech synthesis. -/
structure SendOutcome where
  forwardedToRemote : Bool
  finalMessages : List Msg
  spoken : List String
  deriving DecidableEq

/-- Characters treated as whitespace by the blank-input guard. -/
def isSpaceChar (c : Char) : Bool :=
  c == ' ' || c == '\t' || c == '\n' || c == '\r'

/-- `trim` on a character list: strip leading and trailing whitespace. -/
def trimChars (cs : List Char) : List Char :=
  ((cs.dropWhile isSpaceChar).reverse.dropWhile isSpaceChar).reverse

/-- `sendTextMessage` of the JARVIS variant (`src/hooks/useJarvis.ts`
lines 354-374): blank input (`!text.trim()`) is dropped; otherwise the
user text is appended as a finalized message, one one-shot
`generateContent` request is issued unconditionally (no local command
interception appears anywhere in the function), and its response text (or
a fixed apology on error) is appended as a finalized agent message and
handed to `speak`. `remote` is the outcome of the one-shot request. -/
def sendTextMessage (text : String) (remote : Except String String) : SendOutcome :=
  if trimChars text.data = [] then
    { forwardedToRemote := false, finalMessages := [], spoken := [] }
  else
    match remote with
    | Except.ok aiText =>
      { forwardedToRemote := true,
        finalMessages := [⟨text, Sender.user, false⟩, ⟨aiText, Sender.ai, false⟩],
        spoken := [aiText] }
    | Except.error _ =>
      { forwardedToRemote := true,
        finalMessages := [⟨text, Sender.user, false⟩,
          ⟨"My apologies, I encountered an error with that request.", Sender.ai, false⟩],
        spoken := ["My apologies, I encountered an error with that request."] }

/-- `sendTextMessage` of the Friday variant (`src/hooks/useJarvis.ts`
lines 869-885): no blank guard and no interception either; the one-shot
`generateText` request is always issued, the response is appended as a
finalized agent message and handed to `speakText`; on error a system
apology is appended and nothing is spoken. -/
def sendTextMessageF (text : String) (remote : Except String String) : SendOutcome :=
  match remote with
  | Except.ok aiText =>
    { forwardedToRemote := true,
      finalMessages := [⟨text, Sender.user, false⟩, ⟨aiText, Sender.ai, false⟩],
      spoken := [aiText] }
  | Except.error _ =>
    { forwardedToRemote := true,
      finalMessages := [⟨text, Sender.user, false⟩,
        ⟨"My apologies, I encountered an error.", Sender.system, false⟩],
      spoken := [] }

/-- Modelled from the spec: the utterance normalization of
LocalCommandInterceptor (spec section 4.5, missing from `src/`):
lowercase, trim, strip terminal punctuation. -/
def normalizeUtterance (s : String) : String :=
  String.mk
    (((trimChars (s.data.map Char.toLower)).reverse.dropWhile
      (fun c => c == '!' || c == '.' || c == '?')).reverse)

/-- `leadMatch needle hay` holds when `needle` occurs at the front of
`hay`. -/
def leadMatch : List Char → List Char → Bool
  | [], _ => true
  | _ :: _, [] => false
  | p :: ps, c :: cs => p == c && leadMatch ps cs

/-- `hasSub needle hay` holds when `needle` occurs contiguously anywhere
in `hay`. -/
def hasSub (needle : List Char) : List Char → Bool
  | [] => leadMatch needle []
  | c :: rest => leadMatch needle (c :: rest) || hasSub needle rest

/-- Modelled from the spec: the fixed shutdown-phrase table of
LocalCommandInterceptor (spec sections 4.5 and 8), matched by substring;
the spec names "SHUTDOWN!" as a handled utterance. -/
def shutdownPhrases : List String := ["shutdown", "shut down"]

/-- Modelled from the spec: the exact-match greeting table of
LocalCommandInterceptor; the spec names "hello" as a handled utterance. -/
def greetingPhrases : List String := ["hello", "hi"]

/-- Modelled from the spec: the identity/owner query table of
LocalCommandInterceptor. -/
def identityQueries : List String := ["who are you", "who made you"]

/-- Modelled from the spec: LocalCommandInterceptor (spec section 4.5) is
code of this repository missing from `src/` — the Friday `App` variant
consumes `isShutdown` and `handleWakeUp` from a `useJarvis` variant that
is not among the source files. It classifies a finalized utterance:
identity/owner queries, then shutdown phrases by substring, then exact
greetings; everything else is reported as not handled, meaning the caller
forwards it to the remote model. -/
def localCommandInterceptor (s : String) : Bool :=
  let n := normalizeUtterance s
  identityQueries.contains n
    || shutdownPhrases.any (fun p => hasSub p.data n.data)
    || greetingPhrases.contains n

/-- The base64 alphabet used by the browser's `btoa`/`atob` (RFC 4648),
which the source's `encode`/`decode` helpers wrap. -/
def b64alphabet : List Char :=
  "ABCDEFGHIJKLMNOPQRSTUVWXYZabcdefghijklmnopqrstuvwxyz0123456789+/".data

/-- The alphabet character of a sextet value. -/
def b64chr (n : ℕ) : Char := b64alphabet.getD n '='

/-- Position of a character in the base64 alphabet (helper). -/
def b64idxAux : List Char → Char → ℕ
  | [], _ => 0
  | a :: rest, c => if a == c then 0 else b64idxAux rest c + 1

/-- The sextet value of an alphabet character. -/
def b64idx (c : Char) : ℕ := b64idxAux b64alphabet c

/-- `btoa` over a byte list (the body of the source's `encode`, lines
37-44 of `src/hooks/useJarvis.ts`): three bytes become four alphabet
characters; a final group of one or two bytes is padded with `=`. -/
def encodeB64 : List ℕ → List Char
  | [] => []
  | [b0] => [b64chr (b0 / 4), b64chr (b0 % 4 * 16), '=', '=']
  | [b0, b1] => [b64chr (b0 / 4), b64chr (b0 % 4 * 16 + b1 / 16), b64chr (b1 % 16 * 4), '=']
  | b0 :: b1 :: b2 :: rest =>
    b64chr (b0 / 4) :: b64chr (b0 % 4 * 16 + b1 / 16)
      :: b64chr (b1 % 16 * 4 + b2 / 64) :: b64chr (b2 % 64) :: encodeB64 rest

/-- `atob` back to a byte list (the body of the source's `decode`, lines
8-16): four characters yield three bytes, with trailing `=` padding
yielding one or two bytes in the final group. -/
def decodeB64 : List Char → List ℕ
  | c0 :: c1 :: c2 :: c3 :: rest =>
    if c2 = '=' then [b64idx c0 * 4 + b64idx c1 / 16]
    else if c3 = '=' then
      [b64idx c0 * 4 + b64idx c1 / 16, b64idx c1 % 16 * 16 + b64idx c2 / 4]
    else
      (b64idx c0 * 4 + b64idx c1 / 16)
        :: (b64idx c1 % 16 * 16 + b64idx c2 / 4)
        :: (b64idx c2 % 4 * 64 + b64idx c3)
        :: decodeB64 rest
  | _ => []

/-- The JS `Int16Array` element coercion (ToInt16): truncate toward zero,
then wrap modulo 2^16 into `[-32768, 32768)`. `truncRat` is the
truncation. -/
def truncRat (x : ℚ) : ℤ := if 0 ≤ x then ⌊x⌋ else ⌈x⌉

/-- Wrap the truncation of `x` into a signed 16-bit value. -/
def toInt16 (x : ℚ) : ℤ :=
  if truncRat x % 65536 < 32768 then truncRat x % 65536 else truncRat x % 65536 - 65536

/-- The byte sequence `createBlob` builds before base64-encoding
(`src/hooks/useJarvis.ts` lines 46-56): each mono sample is multiplied by
32768, stored as a 16-bit integer, and laid out little-endian
(low byte first). -/
def createBlobBytes : List ℚ → List ℕ
  | [] => []
  | v :: rest =>
    let u := (toInt16 (v * 32768) % 65536).toNat
    u % 256 :: u / 256 :: createBlobBytes rest

/-- `createBlob` for mono samples: the little-endian 16-bit encoding of
the samples, base64-encoded by `encode`. -/
def createBlob (samples : List ℚ) : List Char :=
  encodeB64 (createBlobBytes samples)

/-- The sample extraction of `decodeAudioData` with one channel: the byte
buffer is reinterpreted as little-endian signed 16-bit integers and each
is divided by 32768. -/
def bytesToSamples : List ℕ → List ℚ
  | lo :: hi :: rest =>
    (let u := lo + 256 * hi
     ((if u < 32768 then (u : ℤ) else (u : ℤ) - 65536) : ℚ) / 32768)
      :: bytesToSamples rest
  | _ => []

/-- `decodeAudioData` (lines 18-35, `numChannels = 1`) composed with the
base64 `decode` helper, as the inbound audio path applies them. -/
def decodeAudioData (chars : List Char) : List ℚ :=
  bytesToSamples (decodeB64 chars)

/-- C1: in the part_000 variant, a turn consisting of the cumulative
transcript deltas "He" then "Hello" for the user followed by turn
completion finalizes to the concatenation "HeHello", while the JARVIS
variant of `updateLastMessage` (whose comment records that appending was a
bug that was fixed by replacing) finalizes the same turn to the last delta
"Hello". This evaluates the code at the failing input of the code_bug
verdict. -/
theorem transcription_append_bug_eval :
    (finalizeTurn (runDeltas updateLastMessageP0 Sender.user ["He", "Hello"] [])).map Msg.text
      = ["HeHello"]
    ∧ (finalizeTurn (runDeltas updateLastMessage Sender.user ["He", "Hello"] [])).map Msg.text
      = ["Hello"]
    ∧ "HeHello" ≠ "Hello" := by
  refine ⟨rfl, rfl, by decide⟩

/-- C10: `addNewTask` always yields a list of at most 10 tasks with the
new task first and exactly the (at most) 9 most recent previous tasks
after it, and `updateTask` never changes the length or the id order of the
list. -/
theorem task_list_bounded_and_ordered (newTask : JTask) (prev : List JTask)
    (id : String) (status : TaskStatus) (result : Option String) (tasks : List JTask) :
    (addNewTask newTask prev).length ≤ 10
    ∧ (addNewTask newTask prev).head? = some newTask
    ∧ (addNewTask newTask prev).tail = prev.take 9
    ∧ (updateTask id status result tasks).length = tasks.length
    ∧ (updateTask id status result tasks).map JTask.id = tasks.map JTask.id := by
  refine ⟨?_, rfl, rfl, ?_, ?_⟩
  · simp only [addNewTask, List.length_cons, List.length_take]
    omega
  · simp [updateTask]
  · induction tasks with
    | nil => rfl
    | cons t ts ih =>
      simp only [updateTask, List.map_cons, List.map_map] at ih ⊢
      refine congrArg₂ List.cons ?_ ih
      by_cases h : t.id = id <;> simp [h]

/-- Under cursor dominance the scheduled starts are exactly the gapless
back-to-back times. -/
theorem schedStarts_eq_packed (chunks : List (ℚ × ℚ)) (c : ℚ)
    (h : CursorDominates c chunks) :
    schedStarts c chunks = packedStarts c (chunks.map Prod.snd) := by
  induction chunks generalizing c with
  | nil => rfl
  | cons p rest ih =>
    obtain ⟨deviceNow, dur⟩ := p
    obtain ⟨h1, h2⟩ := h
    simp only [schedStarts, packedStarts, List.map_cons]
    rw [max_eq_left h1]
    exact congrArg (c :: ·) (ih (c + dur) (by rwa [max_eq_left h1] at h2))

/-- Back-to-back start times increase by exactly the durations. -/
theorem succDiff_packed (ds : List ℚ) (c : ℚ) : SuccDiff (packedStarts c ds) ds := by
  induction ds generalizing c with
  | nil => trivial
  | cons d rest ih =>
    cases rest with
    | nil => simp [packedStarts, SuccDiff]
    | cons d2 rest2 =>
      exact ⟨rfl, ih (c + d)⟩

/-- The head of a nonempty schedule is the max of the cursor and the first
device time. -/
theorem schedStarts_head (c : ℚ) (p : ℚ × ℚ) (rest : List (ℚ × ℚ)) :
    (schedStarts c (p :: rest)).head? = some (max c p.1) := by
  obtain ⟨deviceNow, dur⟩ := p
  rfl

/-- Scheduled start times never decrease when durations are nonnegative. -/
theorem schedStarts_chain (chunks : List (ℚ × ℚ)) (c : ℚ)
    (h : ∀ p ∈ chunks, 0 ≤ p.2) :
    List.Chain' (· ≤ ·) (schedStarts c chunks) := by
  induction chunks generalizing c with
  | nil => simp [schedStarts]
  | cons p rest ih =>
    obtain ⟨deviceNow, dur⟩ := p
    simp only [schedStarts]
    rw [List.chain'_cons']
    refine ⟨?_, ih _ (fun q hq => h q (List.mem_cons_of_mem _ hq))⟩
    intro y hy
    cases rest with
    | nil => simp [schedStarts] at hy
    | cons q rest2 =>
      rw [schedStarts_head] at hy
      obtain rfl : max (max c deviceNow + dur) q.1 = y := by
        simpa using hy
      have hd : (0 : ℚ) ≤ dur := h (deviceNow, dur) (List.mem_cons_self _ _)
      calc max c deviceNow ≤ max c deviceNow + dur := by linarith
        _ ≤ max (max c deviceNow + dur) q.1 := le_max_left _ _

/-- Each start time is the max of the running cursor and device time. -/
theorem schedStarts_eq_zip (chunks : List (ℚ × ℚ)) (c : ℚ) :
    schedStarts c chunks
      = List.zipWith (fun cur p => max cur p.1) (schedCursors c chunks) chunks := by
  induction chunks generalizing c with
  | nil => rfl
  | cons p rest ih =>
    obtain ⟨deviceNow, dur⟩ := p
    simp only [schedStarts, schedCursors, List.zipWith_cons_cons]
    exact congrArg _ (ih _)

/-- C2: for every sequence of chunks scheduled with no intervening
interrupt and nonnegative durations, the start times are non-decreasing,
each start equals `max(cursor, deviceNow)` for the running cursor at the
moment of scheduling, and whenever the cursor stays at or above
device-current-time throughout, consecutive starts satisfy
`start[i+1] = start[i] + duration[i]`. -/
theorem playback_schedule_back_to_back (chunks : List (ℚ × ℚ)) (c : ℚ)
    (hdur : ∀ p ∈ chunks, 0 ≤ p.2) :
    List.Chain' (· ≤ ·) (schedStarts c chunks)
    ∧ schedStarts c chunks
        = List.zipWith (fun cur p => max cur p.1) (schedCursors c chunks) chunks
    ∧ (CursorDominates c chunks →
        SuccDiff (schedStarts c chunks) (chunks.map Prod.snd)) := by
  refine ⟨schedStarts_chain chunks c hdur, schedStarts_eq_zip chunks c, fun hdom => ?_⟩
  rw [schedStarts_eq_packed chunks c hdom]
  exact succDiff_packed _ _

/-- Witness for C2 at the concrete chunk sequence
`[(0, 1), (2, 2), (1, 3)]` with initial cursor 0. -/
theorem playback_schedule_back_to_back_witness :
    (∀ p ∈ [((0 : ℚ), (1 : ℚ)), (2, 2), (1, 3)], 0 ≤ p.2)
    ∧ (List.Chain' (· ≤ ·) (schedStarts 0 [((0 : ℚ), (1 : ℚ)), (2, 2), (1, 3)])
    ∧ schedStarts 0 [((0 : ℚ), (1 : ℚ)), (2, 2), (1, 3)]
        = List.zipWith (fun cur p => max cur p.1)
            (schedCursors 0 [((0 : ℚ), (1 : ℚ)), (2, 2), (1, 3)])
            [((0 : ℚ), (1 : ℚ)), (2, 2), (1, 3)]
    ∧ (CursorDominates 0 [((0 : ℚ), (1 : ℚ)), (2, 2), (1, 3)] →
        SuccDiff (schedStarts 0 [((0 : ℚ), (1 : ℚ)), (2, 2), (1, 3)])
          ([((0 : ℚ), (1 : ℚ)), (2, 2), (1, 3)].map Prod.snd))) :=
  ⟨by decide, playback_schedule_back_to_back _ 0 (by decide)⟩

/-- C3 counterexample: with one source in flight, cursor 5 and device
current time 2, the interrupt handler leaves the cursor at 0, not at the
device's current time, refuting the claim's cursor clause as stated. -/
theorem interrupt_cursor_not_device_time :
    (handleInterrupted ⟨[1], [], 5⟩).cursor = 0
    ∧ (handleInterrupted ⟨[1], [], 5⟩).cursor ≠ (2 : ℚ) := by
  exact ⟨rfl, by norm_num [handleInterrupted]⟩

/-- C3 amended: after an interrupt, for every prior state the tracked set
is empty, every previously tracked source has been stopped, and the cursor
is reset to 0 (not to device-current-time); because a later chunk is
scheduled at `max(cursor, deviceNow)`, the next scheduled start still
equals the device's current time whenever that time is nonnegative. -/
theorem interrupt_clears_sources_resets_cursor_zero (s : PlaybackState)
    (deviceNow : ℚ) (h : 0 ≤ deviceNow) :
    (handleInterrupted s).sources = []
    ∧ (handleInterrupted s).stopped = s.stopped ++ s.sources
    ∧ (handleInterrupted s).cursor = 0
    ∧ max (handleInterrupted s).cursor deviceNow = deviceNow := by
  refine ⟨rfl, rfl, rfl, ?_⟩
  simpa [handleInterrupted] using max_eq_right h

/-- Witness for C3's amended statement at a state with two sources in
flight and device time 2. -/
theorem interrupt_clears_sources_witness :
    (0 : ℚ) ≤ 2
    ∧ ((handleInterrupted ⟨[1, 2], [], 5⟩).sources = []
    ∧ (handleInterrupted ⟨[1, 2], [], 5⟩).stopped = [] ++ [1, 2]
    ∧ (handleInterrupted ⟨[1, 2], [], 5⟩).cursor = 0
    ∧ max (handleInterrupted ⟨[1, 2], [], 5⟩).cursor 2 = 2) :=
  ⟨by norm_num, interrupt_clears_sources_resets_cursor_zero ⟨[1, 2], [], 5⟩ 2 (by norm_num)⟩

/-- C4: for every state and every legal event of the Friday variant, the
speaking indicator turns false only at a step where the tracked source set
transitions from non-empty to empty; whenever the set makes that
transition the indicator is false immediately after it; and turn
completion never changes the indicator. Together these say the indicator
clears exactly when the tracked set becomes empty and never earlier. -/
theorem speaking_indicator_tracks_source_set (s : UIState) (e : SpeakEvent)
    (h : LegalEvent s e) :
    ((s.isSpeaking = true ∧ (stepEvent s e).isSpeaking = false) →
      (s.sources ≠ ∅ ∧ (stepEvent s e).sources = ∅))
    ∧ ((s.sources ≠ ∅ ∧ (stepEvent s e).sources = ∅) →
      (stepEvent s e).isSpeaking = false)
    ∧ (e = SpeakEvent.turnComplete → (stepEvent s e).isSpeaking = s.isSpeaking) := by
  cases e with
  | inputDelta => exact ⟨fun hx => absurd (hx.1.symm.trans hx.2) (by simp), fun hx => absurd hx.2 hx.1, by simp⟩
  | outputDelta =>
    refine ⟨fun hx => ?_, fun hx => absurd hx.2 hx.1, by simp⟩
    simp [stepEvent] at hx
  | turnComplete =>
    exact ⟨fun hx => absurd (hx.1.symm.trans hx.2) (by simp), fun hx => absurd hx.2 hx.1, fun _ => rfl⟩
  | audioChunk src =>
    refine ⟨fun hx => ?_, fun hx => ?_, by simp⟩
    · simp [stepEvent] at hx
    · exact absurd hx.2 (by simp [stepEvent, Finset.insert_ne_empty])
  | toolCallArrived =>
    exact ⟨fun hx => absurd (hx.1.symm.trans hx.2) (by simp), fun hx => absurd hx.2 hx.1, by simp⟩
  | speakTextStart src =>
    refine ⟨fun hx => ?_, fun hx => ?_, by simp⟩
    · simp [stepEvent] at hx
    · exact absurd hx.2 (by simp [stepEvent, Finset.insert_ne_empty])
  | sourceEnded src =>
    have hmem : src ∈ s.sources := h
    by_cases hrest : s.sources.erase src = ∅
    · refine ⟨fun _ => ⟨Finset.ne_empty_of_mem hmem, ?_⟩, fun _ => ?_, by simp⟩
      · simp [stepEvent, hrest]
      · simp [stepEvent, hrest]
    · refine ⟨fun hx => ?_, fun hx => ?_, by simp⟩
      · exfalso
        have : (stepEvent s (SpeakEvent.sourceEnded src)).isSpeaking = s.isSpeaking := by
          simp [stepEvent, hrest]
        rw [this, hx.1] at hx
        exact absurd hx.2 (by simp)
      · exfalso
        have : (stepEvent s (SpeakEvent.sourceEnded src)).sources = s.sources.erase src := by
          simp [stepEvent]
        rw [this] at hx
        exact hrest hx.2

/-- Witness for C4: the last tracked source (id 3) ends while the
indicator is on. -/
theorem speaking_indicator_witness :
    LegalEvent ⟨{3}, true, false⟩ (SpeakEvent.sourceEnded 3)
    ∧ (((⟨{3}, true, false⟩ : UIState).isSpeaking = true
        ∧ (stepEvent ⟨{3}, true, false⟩ (SpeakEvent.sourceEnded 3)).isSpeaking = false) →
      ((⟨{3}, true, false⟩ : UIState).sources ≠ ∅
        ∧ (stepEvent ⟨{3}, true, false⟩ (SpeakEvent.sourceEnded 3)).sources = ∅))
    ∧ (((⟨{3}, true, false⟩ : UIState).sources ≠ ∅
        ∧ (stepEvent ⟨{3}, true, false⟩ (SpeakEvent.sourceEnded 3)).sources = ∅) →
      (stepEvent ⟨{3}, true, false⟩ (SpeakEvent.sourceEnded 3)).isSpeaking = false)
    ∧ (SpeakEvent.sourceEnded 3 = SpeakEvent.turnComplete →
      (stepEvent ⟨{3}, true, false⟩ (SpeakEvent.sourceEnded 3)).isSpeaking
        = (⟨{3}, true, false⟩ : UIState).isSpeaking) := by
  have hleg : LegalEvent ⟨{3}, true, false⟩ (SpeakEvent.sourceEnded 3) := by
    show (3 : ℕ) ∈ ({3} : Finset ℕ)
    simp
  exact ⟨hleg, speaking_indicator_tracks_source_set ⟨{3}, true, false⟩ (SpeakEvent.sourceEnded 3) hleg⟩

/-- C8: `stopSession` never raises: on every state (including one where
the session was never started, and including its own result) it returns
normally, leaves the session inactive with no session ref and no tracked
sources, and running it a second time returns the same state again; the
JARVIS-variant `disconnect` is likewise total and idempotent. -/
theorem stopSession_idempotent_no_raise (s : SessionState) (d : DisconnectState) :
    (∃ s2, stopSession s = Except.ok s2
      ∧ s2.isSessionActive = false
      ∧ s2.sessionRef = none
      ∧ s2.sources = []
      ∧ s2.micVolume = 0
      ∧ stopSession s2 = Except.ok s2)
    ∧ disconnect (disconnect d) = disconnect d
    ∧ (disconnect d).isSessionActive = false := by
  refine ⟨?_, rfl, rfl⟩
  cases hr : s.sessionRef with
  | none =>
    cases hc : s.inputCtx with
    | none =>
      refine ⟨⟨none, none, s.tracksLive.map (fun _ => false), [], false, 0⟩, ?_, rfl, rfl, rfl, rfl, ?_⟩
      · simp [stopSession, hr, hc, Except.map]
      · simp [stopSession, Except.map]
    | some ctx =>
      cases ctx <;>
        · refine ⟨⟨none, some CtxState.closed, s.tracksLive.map (fun _ => false), [], false, 0⟩,
            ?_, rfl, rfl, rfl, rfl, ?_⟩
          · simp [stopSession, hr, hc, closeCtx, Except.map]
          · simp [stopSession, Except.map]
  | some u =>
    cases hc : s.inputCtx with
    | none =>
      refine ⟨⟨none, none, s.tracksLive.map (fun _ => false), [], false, 0⟩, ?_, rfl, rfl, rfl, rfl, ?_⟩
      · simp [stopSession, hr, hc, Except.map]
      · simp [stopSession, Except.map]
    | some ctx =>
      cases ctx <;>
        · refine ⟨⟨none, some CtxState.closed, s.tracksLive.map (fun _ => false), [], false, 0⟩,
            ?_, rfl, rfl, rfl, rfl, ?_⟩
          · simp [stopSession, hr, hc, closeCtx, Except.map]
          · simp [stopSession, Except.map]

/-- C5 counterexample: in the Friday dispatcher the unknown tool name
"bogus" does not produce an error result at all: the switch has no
default case, so the call returns the success payload
`{result: {message: 'Task completed successfully.'}}` and marks its task
completed, refuting the claim for that dispatcher. -/
theorem friday_unknown_tool_reports_success :
    ("bogus" ∉ fridayRegistry)
    ∧ (executeToolCallF ⟨"42", "bogus"⟩ (fun _ => BranchResultF.ok "" [])).resultMessage
        = "Task completed successfully."
    ∧ (executeToolCallF ⟨"42", "bogus"⟩ (fun _ => BranchResultF.ok "" [])).taskStatus
        = TaskStatus.completed
    ∧ TaskStatus.completed ≠ TaskStatus.failed := by
  exact ⟨by decide, rfl, rfl, by decide⟩

/-- C5 amended: in the part_000 and JARVIS dispatchers every tool name
outside the fixed registry yields the structured error payload
`{error: 'Unknown function'}` without throwing (the embedding is a total
function), with a spoken apology, a completed task record, and the
processing flag cleared; the Friday dispatcher also does not throw on an
unknown name but returns a success payload instead of an error. -/
theorem unknown_tool_returns_error_payload (fc : FunctionCall)
    (branch : String → BranchResult) (h : fc.name ∉ part000Registry) :
    (executeToolCall fc branch).response
      = ⟨fc.id, fc.name, ResultPayload.error "Unknown function"⟩
    ∧ (executeToolCall fc branch).spoken = ["I'm sorry, I don't know how to do that."]
    ∧ (executeToolCall fc branch).taskStatus = TaskStatus.completed
    ∧ (executeToolCall fc branch).processingAfter = false := by
  simp [executeToolCall, h]

/-- Witness for C5's amended statement at the unknown name "bogus". -/
theorem unknown_tool_returns_error_payload_witness :
    ("bogus" ∉ part000Registry)
    ∧ ((executeToolCall ⟨"42", "bogus"⟩ (fun _ => BranchResult.ok ResultPayload.okStatus [])).response
        = ⟨"42", "bogus", ResultPayload.error "Unknown function"⟩
    ∧ (executeToolCall ⟨"42", "bogus"⟩ (fun _ => BranchResult.ok ResultPayload.okStatus [])).spoken
        = ["I'm sorry, I don't know how to do that."]
    ∧ (executeToolCall ⟨"42", "bogus"⟩ (fun _ => BranchResult.ok ResultPayload.okStatus [])).taskStatus
        = TaskStatus.completed
    ∧ (executeToolCall ⟨"42", "bogus"⟩ (fun _ => BranchResult.ok ResultPayload.okStatus [])).processingAfter
        = false) :=
  ⟨by decide, unknown_tool_returns_error_payload ⟨"42", "bogus"⟩ _ (by decide)⟩

/-- C6 counterexample: in the Friday dispatcher a failing `searchWeb`
call produces zero user-visible failure messages, not exactly one — the
catch block only logs to the console and updates the task record, which
the Friday hook never returns to the presentation layer, and neither
`addMessage` nor `speakText` runs — and the returned payload is the plain
message string "I failed to execute the task: boom", a
`{result: {message}}` shape with no error field, refuting the claim as
stated for that dispatcher. -/
theorem friday_failed_tool_no_user_message :
    (executeToolCallF ⟨"42", "searchWeb"⟩ (fun _ => BranchResultF.thrown "boom" [])).messages
      = []
    ∧ (executeToolCallF ⟨"42", "searchWeb"⟩ (fun _ => BranchResultF.thrown "boom" [])).messages.length
      ≠ 1
    ∧ (executeToolCallF ⟨"42", "searchWeb"⟩ (fun _ => BranchResultF.thrown "boom" [])).resultMessage
      = "I failed to execute the task: boom"
    ∧ (executeToolCallF ⟨"42", "searchWeb"⟩ (fun _ => BranchResultF.thrown "boom" [])).taskStatus
      = TaskStatus.failed := by
  exact ⟨rfl, by decide, rfl, rfl⟩

/-- C6 amended: when a registered tool's handler throws, the part_000 /
JARVIS dispatcher produces exactly one correlated result carrying the
call's id and name with the error payload, appends exactly one
user-visible (spoken) failure message to whatever the branch had already
spoken, marks the task failed, and leaves the processing flag cleared —
and, being a total function, propagates no exception. The Friday
dispatcher also catches the exception, clears the processing flag, and
its send site emits exactly one correlated response carrying the call's
id and name, but that payload is the plain message
"I failed to execute the task: ..." rather than an error payload, and no
user-visible failure message is added (the catch appends no chat message
and the task record is not exposed by that hook). -/
theorem failed_tool_call_dispatcher_outcomes (fc : FunctionCall)
    (branch : String → BranchResult) (branchF : String → BranchResultF)
    (e : String) (pre : List String) (preF : List String)
    (hreg : fc.name ∈ part000Registry)
    (hthrow : branch fc.name = BranchResult.thrown e pre)
    (hregF : fc.name ∈ fridayRegistry)
    (hthrowF : branchF fc.name = BranchResultF.thrown e preF) :
    (executeToolCall fc branch).response = ⟨fc.id, fc.name, ResultPayload.error e⟩
    ∧ (executeToolCall fc branch).spoken
        = pre ++ ["I encountered an error while trying to " ++ fc.name ++ "."]
    ∧ (executeToolCall fc branch).taskStatus = TaskStatus.failed
    ∧ (executeToolCall fc branch).processingAfter = false
    ∧ sendToolResponseF fc (executeToolCallF fc branchF)
        = ⟨fc.id, fc.name, "I failed to execute the task: " ++ e⟩
    ∧ (executeToolCallF fc branchF).messages = preF
    ∧ (executeToolCallF fc branchF).taskStatus = TaskStatus.failed
    ∧ (executeToolCallF fc branchF).processingAfter = false := by
  simp [executeToolCall, executeToolCallF, sendToolResponseF, hreg, hthrow, hregF, hthrowF]

/-- Witness for C6's amended statement: the call
`{id: "42", name: "searchWeb"}` whose branch throws "boom" in both
dispatchers. -/
theorem failed_tool_call_dispatcher_outcomes_witness :
    ("searchWeb" ∈ part000Registry
    ∧ (fun (_ : String) => BranchResult.thrown "boom" []) "searchWeb"
        = BranchResult.thrown "boom" []
    ∧ "searchWeb" ∈ fridayRegistry
    ∧ (fun (_ : String) => BranchResultF.thrown "boom" []) "searchWeb"
        = BranchResultF.thrown "boom" [])
    ∧ ((executeToolCall ⟨"42", "searchWeb"⟩ (fun _ => BranchResult.thrown "boom" [])).response
        = ⟨"42", "searchWeb", ResultPayload.error "boom"⟩
    ∧ (executeToolCall ⟨"42", "searchWeb"⟩ (fun _ => BranchResult.thrown "boom" [])).spoken
        = [] ++ ["I encountered an error while trying to " ++ "searchWeb" ++ "."]
    ∧ (executeToolCall ⟨"42", "searchWeb"⟩ (fun _ => BranchResult.thrown "boom" [])).taskStatus
        = TaskStatus.failed
    ∧ (executeToolCall ⟨"42", "searchWeb"⟩ (fun _ => BranchResult.thrown "boom" [])).processingAfter
        = false
    ∧ sendToolResponseF ⟨"42", "searchWeb"⟩
        (executeToolCallF ⟨"42", "searchWeb"⟩ (fun _ => BranchResultF.thrown "boom" []))
        = ⟨"42", "searchWeb", "I failed to execute the task: " ++ "boom"⟩
    ∧ (executeToolCallF ⟨"42", "searchWeb"⟩ (fun _ => BranchResultF.thrown "boom" [])).messages
        = []
    ∧ (executeToolCallF ⟨"42", "searchWeb"⟩ (fun _ => BranchResultF.thrown "boom" [])).taskStatus
        = TaskStatus.failed
    ∧ (executeToolCallF ⟨"42", "searchWeb"⟩ (fun _ => BranchResultF.thrown "boom" [])).processingAfter
        = false) :=
  ⟨⟨by decide, rfl, by decide, rfl⟩,
    failed_tool_call_dispatcher_outcomes ⟨"42", "searchWeb"⟩ _ _ "boom" [] []
      (by decide) rfl (by decide) rfl⟩

/-- C7 counterexample: "shutdown" and "hello" are handled by the
spec-modelled LocalCommandInterceptor (and "what is the capital of france"
is not, matching the spec's examples), yet `sendTextMessage` issues the
one-shot remote request for them: the text is forwarded even though the
interceptor reports it handled, refuting the claim that only unhandled
text reaches the remote model. -/
theorem sendText_forwards_handled_command :
    localCommandInterceptor "shutdown" = true
    ∧ localCommandInterceptor "SHUTDOWN!" = true
    ∧ localCommandInterceptor "hello" = true
    ∧ localCommandInterceptor "what is the capital of france" = false
    ∧ (sendTextMessage "shutdown" (Except.ok "ok")).forwardedToRemote = true
    ∧ (sendTextMessage "hello" (Except.ok "ok")).forwardedToRemote = true
    ∧ (sendTextMessageF "shutdown" (Except.ok "ok")).forwardedToRemote = true := by
  exact ⟨by decide, by decide, by decide, by decide, rfl, rfl, rfl⟩

/-- C7 amended: `sendTextMessage` forwards every non-blank input directly
to the remote model as a one-shot request — no local command interception
occurs in either variant — and appends the response as a finalized agent
message handed to speech synthesis; the Friday variant forwards every
input unconditionally. -/
theorem sendText_forwards_all_nonblank (text aiText : String)
    (h : trimChars text.data ≠ []) :
    (sendTextMessage text (Except.ok aiText)).forwardedToRemote = true
    ∧ (sendTextMessage text (Except.ok aiText)).finalMessages
        = [⟨text, Sender.user, false⟩, ⟨aiText, Sender.ai, false⟩]
    ∧ (sendTextMessage text (Except.ok aiText)).spoken = [aiText]
    ∧ (∀ e, (sendTextMessage text (Except.error e)).forwardedToRemote = true)
    ∧ (sendTextMessageF text (Except.ok aiText)).forwardedToRemote = true
    ∧ (sendTextMessageF text (Except.ok aiText)).finalMessages
        = [⟨text, Sender.user, false⟩, ⟨aiText, Sender.ai, false⟩]
    ∧ (sendTextMessageF text (Except.ok aiText)).spoken = [aiText] := by
  simp [sendTextMessage, sendTextMessageF, h]

/-- Witness for C7's amended statement at a non-blank question. -/
theorem sendText_forwards_all_nonblank_witness :
    trimChars "what time is it".data ≠ []
    ∧ ((sendTextMessage "what time is it" (Except.ok "It is noon.")).forwardedToRemote = true
    ∧ (sendTextMessage "what time is it" (Except.ok "It is noon.")).finalMessages
        = [⟨"what time is it", Sender.user, false⟩, ⟨"It is noon.", Sender.ai, false⟩]
    ∧ (sendTextMessage "what time is it" (Except.ok "It is noon.")).spoken = ["It is noon."]
    ∧ (∀ e, (sendTextMessage "what time is it" (Except.error e)).forwardedToRemote = true)
    ∧ (sendTextMessageF "what time is it" (Except.ok "It is noon.")).forwardedToRemote = true
    ∧ (sendTextMessageF "what time is it" (Except.ok "It is noon.")).finalMessages
        = [⟨"what time is it", Sender.user, false⟩, ⟨"It is noon.", Sender.ai, false⟩]
    ∧ (sendTextMessageF "what time is it" (Except.ok "It is noon.")).spoken = ["It is noon."]) :=
  ⟨by decide, sendText_forwards_all_nonblank "what time is it" "It is noon." (by decide)⟩

/-- The base64 alphabet lookup inverts the character table on sextets. -/
theorem b64chr_idx : ∀ n < 64, b64idx (b64chr n) = n := by decide

/-- No sextet maps to the padding character. -/
theorem b64chr_ne_pad : ∀ n < 64, b64chr n ≠ '=' := by decide

/-- Base64 decoding inverts base64 encoding on byte lists. -/
theorem decodeB64_encodeB64 : ∀ bs : List ℕ, (∀ b ∈ bs, b < 256) →
    decodeB64 (encodeB64 bs) = bs
  | [], _ => rfl
  | [b0], h => by
    have h0 : b0 < 256 := h b0 (by simp)
    simp only [encodeB64, decodeB64, if_true]
    rw [b64chr_idx _ (by omega), b64chr_idx _ (by omega)]
    simp only [List.cons.injEq, and_true]
    omega
  | [b0, b1], h => by
    have h0 : b0 < 256 := h b0 (by simp)
    have h1 : b1 < 256 := h b1 (by simp)
    simp only [encodeB64, decodeB64]
    rw [if_neg (b64chr_ne_pad _ (by omega))]
    simp only [if_true]
    rw [b64chr_idx _ (by omega), b64chr_idx _ (by omega), b64chr_idx _ (by omega)]
    simp only [List.cons.injEq, and_true]
    exact ⟨by omega, by omega⟩
  | b0 :: b1 :: b2 :: rest, h => by
    have h0 : b0 < 256 := h b0 (by simp)
    have h1 : b1 < 256 := h b1 (by simp)
    have h2 : b2 < 256 := h b2 (by simp)
    simp only [encodeB64, decodeB64]
    rw [if_neg (b64chr_ne_pad _ (by omega)), if_neg (b64chr_ne_pad _ (by omega))]
    rw [b64chr_idx _ (by omega), b64chr_idx _ (by omega), b64chr_idx _ (by omega),
      b64chr_idx _ (by omega)]
    rw [decodeB64_encodeB64 rest (fun b hb => h b (by simp [hb]))]
    simp only [List.cons.injEq, and_true]
    exact ⟨by omega, by omega, by omega⟩

/-- Every byte produced by `createBlobBytes` fits in one octet. -/
theorem createBlobBytes_lt : ∀ (samples : List ℚ), ∀ b ∈ createBlobBytes samples, b < 256
  | [], b, hb => by simp [createBlobBytes] at hb
  | v :: rest, b, hb => by
    have hmod : (toInt16 (v * 32768) % 65536).toNat < 65536 := by
      have hlt : toInt16 (v * 32768) % 65536 < 65536 :=
        Int.emod_lt_of_pos _ (by norm_num)
      omega
    simp only [createBlobBytes, List.mem_cons] at hb
    rcases hb with hb | hb | hb
    · omega
    · omega
    · exact createBlobBytes_lt rest b hb

/-- Truncation toward zero is the identity on integer-valued rationals. -/
theorem truncRat_intCast (k : ℤ) : truncRat (k : ℚ) = k := by
  unfold truncRat
  split <;> simp

/-- On in-range integers the 16-bit wrap is the identity. -/
theorem toInt16_small (k : ℤ) (h1 : -32768 ≤ k) (h2 : k < 32768) :
    toInt16 (k : ℚ) = k := by
  unfold toInt16
  rw [truncRat_intCast]
  split <;> omega

/-- The little-endian 16-bit sample layout decodes back to the samples. -/
theorem bytesToSamples_createBlobBytes : ∀ (ks : List ℤ),
    (∀ k ∈ ks, -32768 ≤ k ∧ k < 32768) →
    bytesToSamples (createBlobBytes (ks.map (fun (k : ℤ) => (k : ℚ) / 32768)))
      = ks.map (fun (k : ℤ) => (k : ℚ) / 32768)
  | [], _ => rfl
  | k :: rest, h => by
    obtain ⟨h1, h2⟩ := h k (List.mem_cons_self _ _)
    have hk : toInt16 ((k : ℚ) / 32768 * 32768) = k := by
      rw [div_mul_cancel₀ _ (by norm_num : (32768 : ℚ) ≠ 0)]
      exact toInt16_small k h1 h2
    simp only [List.map_cons, createBlobBytes, bytesToSamples, hk]
    rw [bytesToSamples_createBlobBytes rest (fun q hq => h q (List.mem_cons_of_mem _ hq))]
    have hu : (k % 65536).toNat % 256 + 256 * ((k % 65536).toNat / 256)
        = (k % 65536).toNat := by omega
    rw [hu]
    congr 1
    split
    · have hzk : ((k % 65536).toNat : ℤ) = k := by omega
      conv_rhs => rw [← hzk]
    · have hzk : ((k % 65536).toNat : ℤ) - 65536 = k := by omega
      conv_rhs => rw [← hzk]
      push_cast
      ring

/-- C9: decoding inverts encoding on the audio frame path: for every mono
sample list whose values are exact multiples of 1/32768 in [-1, 1) (the
image of in-range 16-bit integers), applying `decodeAudioData` after the
base64 `decode` to the output of `createBlob` (scale by 32768, truncate to
16-bit little-endian, base64-encode) returns the original samples. -/
theorem audio_encode_decode_roundtrip (ks : List ℤ)
    (h : ∀ k ∈ ks, -32768 ≤ k ∧ k < 32768) :
    decodeAudioData (createBlob (ks.map (fun (k : ℤ) => (k : ℚ) / 32768)))
      = ks.map (fun (k : ℤ) => (k : ℚ) / 32768) := by
  unfold decodeAudioData createBlob
  rw [decodeB64_encodeB64 _ (createBlobBytes_lt _)]
  exact bytesToSamples_createBlobBytes ks h

/-- Witness for C9 at the samples 1/2, -1/4, 0, -1 and 32767/32768. -/
theorem audio_encode_decode_roundtrip_witness :
    (∀ k ∈ [(16384 : ℤ), -8192, 0, -32768, 32767], -32768 ≤ k ∧ k < 32768)
    ∧ decodeAudioData
        (createBlob ([(16384 : ℤ), -8192, 0, -32768, 32767].map (fun (k : ℤ) => (k : ℚ) / 32768)))
      = [(16384 : ℤ), -8192, 0, -32768, 32767].map (fun (k : ℤ) => (k : ℚ) / 32768) :=
  ⟨by decide, audio_encode_decode_roundtrip _ (by decide)⟩
